import Mathlib

/-
Verification of the interactive forecasting loop of `analiz.py`
(cu-veri-analizi): subject matching, year-prompt validation,
linear-model forecasting, data-sufficiency guards, and the
control flow of the interactive loop.

Strings are modelled as lists of characters; Python's `s.lower()`
is character-wise lowercasing and `a in b` is contiguous-substring
containment. Machine floats in the lm branch are modelled by exact
rationals. The Python dict `alan_mapping` is modelled as an
insertion-ordered association list with Python's key-overwrite
semantics.
-/

set_option autoImplicit false

namespace Analiz

abbrev Str := List Char

/-- Python `s.lower()` (character-wise). -/
def lowerStr (s : Str) : Str := s.map Char.toLower

/-- `leadMatch needle hay` is true iff `needle` is an initial segment of `hay`. -/
def leadMatch : Str → Str → Bool
  | [], _ => true
  | _ :: _, [] => false
  | c :: cs, d :: ds => c == d && leadMatch cs ds

/-- Python `needle in hay`: contiguous substring containment. -/
def strContains : Str → Str → Bool
  | [], needle => leadMatch needle []
  | h :: t, needle => leadMatch needle (h :: t) || strContains t needle

/-- The predicate of the matching loops of `analiz.py`
(lines 404-410 and 432-442): the user token equals the alias key,
or the token occurs in the alias key (`kullanici_alani == veri_alani`
/ `kullanici_alani in veri_alani`). -/
def matchPred (token key : Str) : Bool :=
  if token = key then true else strContains key token

/-- The inner matching loop of `analiz.py`: walk the alias mapping in
iteration order and return the canonical value of the first key that
satisfies `matchPred`, breaking out of the loop at the first hit;
`none` when no key matches (nothing is appended). -/
def firstMatch (token : Str) : List (Str × Str) → Option Str
  | [] => none
  | (k, v) :: rest => if matchPred token k then some v else firstMatch token rest

/-- Python dict assignment `m[k] = v`: replace in place when the key is
present, otherwise append at the end (insertion order preserved). -/
def dictSet (k v : Str) : List (Str × Str) → List (Str × Str)
  | [] => [(k, v)]
  | p :: rest => if p.1 = k then (k, v) :: rest else p :: dictSet k v rest

/-- `alan_mapping = {alan.lower(): alan for alan in df_alan_yillik["Alan"].unique()}`
(line 385-386): a dict built by inserting `(lower label, label)` for each
distinct label in first-appearance order. -/
def buildMapping (alans : List Str) : List (Str × Str) :=
  alans.foldl (fun m a => dictSet (lowerStr a) a m) []

/-- pandas `.unique()`: distinct values in order of first appearance. -/
def dedupKeepFirst {α : Type} [DecidableEq α] (seen : List α) : List α → List α
  | [] => []
  | a :: rest =>
      if a ∈ seen then dedupKeepFirst seen rest
      else a :: dedupKeepFirst (a :: seen) rest

/-- The outer matching loop for user-specified tokens (lines 432-442):
each token contributes the first alias value it matches, tokens with no
match contribute nothing. -/
def eslesenAlanlar (tokens : List Str) (mapping : List (Str × Str)) : List Str :=
  tokens.filterMap (fun t => firstMatch t mapping)

/-- C1: Subject matcher contract. For every token and alias mapping, the
matcher returns the canonical value of the first alias entry, in the
mapping's iteration order, whose key the token equals or is a substring
of; when no entry satisfies the predicate it returns no match. (The
embedding is a pure function, so the lookup cannot mutate the mapping or
the data.) -/
theorem subject_matcher_contract :
    (∀ (token : Str) (m1 : List (Str × Str)) (k v : Str) (m2 : List (Str × Str)),
       (∀ p ∈ m1, matchPred token p.1 = false) →
       matchPred token k = true →
       firstMatch token (m1 ++ (k, v) :: m2) = some v)
    ∧ (∀ (token : Str) (m : List (Str × Str)),
       (∀ p ∈ m, matchPred token p.1 = false) →
       firstMatch token m = none) := by
  constructor
  · intro token m1 k v m2 hnone hk
    induction m1 with
    | nil => simp [firstMatch, hk]
    | cons p rest ih =>
        have hp : matchPred token p.1 = false := hnone p (by simp)
        have hrest : ∀ q ∈ rest, matchPred token q.1 = false :=
          fun q hq => hnone q (by simp [hq])
        simpa [firstMatch, hp] using ih hrest
  · intro token m hnone
    induction m with
    | nil => rfl
    | cons p rest ih =>
        have hp : matchPred token p.1 = false := hnone p (by simp)
        have hrest : ∀ q ∈ rest, matchPred token q.1 = false :=
          fun q hq => hnone q (by simp [hq])
        simpa [firstMatch, hp] using ih hrest

/-- Witness for C1 at a concrete mapping: token `chem` skips the
non-matching entry for `physics` and hits `chemistry` by substring. -/
theorem subject_matcher_contract_witness :
    firstMatch "chem".toList
      [("physics".toList, "Physics".toList),
       ("chemistry".toList, "Chemistry".toList)] = some "Chemistry".toList := by
  have h := subject_matcher_contract.1 "chem".toList
    [("physics".toList, "Physics".toList)]
    "chemistry".toList "Chemistry".toList []
    (by intro p hp; simp at hp; subst hp; decide)
    (by decide)
  simpa using h

/-- One console line fed to `ask_int`: empty input, a line parsing as an
integer, or a line `int()` rejects (including an interrupted prompt,
which the code also turns into a re-prompt). -/
inductive InTok where
  | emptyT : InTok
  | intT : ℤ → InTok
  | badT : InTok
deriving DecidableEq

/-- One pass of the `ask_int` body (lines 102-123): empty input returns
the default when one is given; a non-integer line re-prompts; an integer
below `min_val` or above `max_val` re-prompts; otherwise the value is
returned. `none` means "loop again". -/
def askStep (default mn mx : Option ℤ) : InTok → Option ℤ
  | .emptyT => default
  | .badT => none
  | .intT n =>
      if _h : ∃ m, mn = some m ∧ n < m then none
      else if _h2 : ∃ m, mx = some m ∧ m < n then none
      else some n

/-- `ask_int` over a finite script of input lines: the first line the
body accepts yields the result; an exhausted script yields `none` (the
real loop would keep prompting). -/
def ask_int : List InTok → Option ℤ → Option ℤ → Option ℤ → Option ℤ
  | [], _, _, _ => none
  | t :: rest, d, mn, mx =>
      match askStep d mn mx t with
      | some v => some v
      | none => ask_int rest d mn mx

/-- C2: Year validation. With bounds `min_val`/`max_val` set, a typed
integer inside the range is returned unchanged, and a typed integer
outside the range is rejected: the prompt continues with the remaining
input, so no out-of-range typed value is ever returned. -/
theorem ask_int_year_validation
    (rest : List InTok) (d : Option ℤ) (mn mx y : ℤ) :
    (mn ≤ y → y ≤ mx →
       ask_int (.intT y :: rest) d (some mn) (some mx) = some y)
    ∧ (y < mn ∨ mx < y →
       ask_int (.intT y :: rest) d (some mn) (some mx) =
         ask_int rest d (some mn) (some mx)) := by
  constructor
  · intro h1 h2
    have h1' : ¬ y < mn := not_lt.mpr h1
    have h2' : ¬ mx < y := not_lt.mpr h2
    simp [ask_int, askStep, h1', h2']
  · intro h
    rcases h with h | h
    · simp [ask_int, askStep, h]
    · by_cases hc : y < mn
      · simp [ask_int, askStep, hc]
      · simp [ask_int, askStep, hc, h]

/-- Witness for C2 at concrete bounds `[2025, 2124]`: 2030 is accepted
unchanged, and 2024 is rejected so the next line (2030) is used. -/
theorem ask_int_year_validation_witness :
    ask_int [.intT 2030] none (some 2025) (some 2124) = some 2030 ∧
    ask_int [.intT 2024, .intT 2030] none (some 2025) (some 2124) =
      ask_int [.intT 2030] none (some 2025) (some 2124) := by
  exact ⟨(ask_int_year_validation [] none 2025 2124 2030).1 (by decide) (by decide),
         (ask_int_year_validation [.intT 2030] none 2025 2124 2024).2 (Or.inl (by decide))⟩

/-- `TARGET_DEFAULT = 2026` (line 26). -/
def TARGET_DEFAULT : ℤ := 2026

/-- One row of the aggregated yearly-category table `df_alan_yillik`
(query 5): year, subject label, publication count. -/
structure Row where
  yil : ℤ
  alan : Str
  sayi : ℤ
deriving DecidableEq

/-- `DATA_LAST_YEAR = int(df_alan_yillik["Yil"].max())` (line 297):
the maximum year present in the aggregated table (0 as a formal value
on an empty table, where pandas would yield NaN). -/
def dataLastYear (df : List Row) : ℤ :=
  match df.map (fun r => r.yil) with
  | [] => 0
  | y :: ys => ys.foldl max y

/-- `ALLOWED_MIN_YEAR = DATA_LAST_YEAR + 1` (line 298). -/
def allowedMinYear (df : List Row) : ℤ := dataLastYear df + 1

/-- `ALLOWED_MAX_YEAR = DATA_LAST_YEAR + 100` (line 299). -/
def allowedMaxYear (df : List Row) : ℤ := dataLastYear df + 100

lemma foldl_max_mem (l : List ℤ) : ∀ a : ℤ, l.foldl max a = a ∨ l.foldl max a ∈ l := by
  induction l with
  | nil => intro a; simp
  | cons b t ih =>
      intro a
      rcases ih (max a b) with h | h
      · rcases max_choice a b with hm | hm
        · exact Or.inl (by rw [List.foldl_cons, h, hm])
        · exact Or.inr (by rw [List.foldl_cons, h, hm]; simp)
      · exact Or.inr (by simp [h])

lemma foldl_max_ub (l : List ℤ) :
    ∀ a : ℤ, a ≤ l.foldl max a ∧ ∀ y ∈ l, y ≤ l.foldl max a := by
  induction l with
  | nil => intro a; simp
  | cons b t ih =>
      intro a
      obtain ⟨h1, h2⟩ := ih (max a b)
      refine ⟨le_trans (le_max_left a b) h1, ?_⟩
      intro y hy
      rcases List.mem_cons.mp hy with rfl | hy
      · exact le_trans (le_max_right a y) h1
      · exact h2 y hy

/-- C4: The allowed target-year range is `[last + 1, last + 100]` where
`last` is the maximum year present in the aggregated yearly-category
table: on a nonempty table, `dataLastYear` is a year of the table and
bounds every year of the table, and the two range endpoints are obtained
from it by adding 1 and 100. (In the script all three constants are
computed once, before the interactive `while` loop, from the table.) -/
theorem allowed_year_range (df : List Row) (hne : df ≠ []) :
    dataLastYear df ∈ df.map (fun r => r.yil) ∧
    (∀ y ∈ df.map (fun r => r.yil), y ≤ dataLastYear df) ∧
    allowedMinYear df = dataLastYear df + 1 ∧
    allowedMaxYear df = dataLastYear df + 100 := by
  have hmap : df.map (fun r => r.yil) ≠ [] := by
    simpa using hne
  rcases hy : df.map (fun r => r.yil) with _ | ⟨y, ys⟩
  · exact absurd hy hmap
  · have hlast : dataLastYear df = ys.foldl max y := by
      simp [dataLastYear, hy]
    refine ⟨?_, ?_, rfl, rfl⟩
    · rw [hy, hlast]
      rcases foldl_max_mem ys y with h | h
      · simp [h]
      · simp [h]
    · intro z hz
      rw [hy] at hz
      rw [hlast]
      rcases List.mem_cons.mp hz with rfl | hz
      · exact (foldl_max_ub ys z).1
      · exact (foldl_max_ub ys y).2 z hz

/-- Witness for C4 on a two-row table with years 2019 and 2024. -/
theorem allowed_year_range_witness :
    dataLastYear [⟨2019, "a".toList, 1⟩, ⟨2024, "b".toList, 2⟩] ∈
      ([⟨2019, "a".toList, 1⟩, ⟨2024, "b".toList, 2⟩] : List Row).map (fun r => r.yil) ∧
    (∀ y ∈ ([⟨2019, "a".toList, 1⟩, ⟨2024, "b".toList, 2⟩] : List Row).map (fun r => r.yil),
       y ≤ dataLastYear [⟨2019, "a".toList, 1⟩, ⟨2024, "b".toList, 2⟩]) ∧
    allowedMinYear [⟨2019, "a".toList, 1⟩, ⟨2024, "b".toList, 2⟩] =
      dataLastYear [⟨2019, "a".toList, 1⟩, ⟨2024, "b".toList, 2⟩] + 1 ∧
    allowedMaxYear [⟨2019, "a".toList, 1⟩, ⟨2024, "b".toList, 2⟩] =
      dataLastYear [⟨2019, "a".toList, 1⟩, ⟨2024, "b".toList, 2⟩] + 100 :=
  allowed_year_range [⟨2019, "a".toList, 1⟩, ⟨2024, "b".toList, 2⟩] (by decide)

/-- `_default_year = max(TARGET_DEFAULT, ALLOWED_MIN_YEAR)` (line 452). -/
def defaultYear (df : List Row) : ℤ := max TARGET_DEFAULT (allowedMinYear df)

/-- C9: Empty year input. When the first input line at the year prompt is
empty, `ask_int` immediately returns the configured default, which the
caller sets to `max(TARGET_DEFAULT, ALLOWED_MIN_YEAR)`. -/
theorem empty_year_input_default (df : List Row) (rest : List InTok) :
    ask_int (.emptyT :: rest) (some (defaultYear df))
        (some (allowedMinYear df)) (some (allowedMaxYear df)) =
      some (max TARGET_DEFAULT (allowedMinYear df)) := by
  simp [ask_int, askStep, defaultYear]

/-- C10: The default is returned unchecked. On empty input `ask_int`
returns the default without comparing it to `min_val`/`max_val`, so an
out-of-range default is returned as-is; bounds are enforced only on
typed input. -/
theorem ask_int_default_unchecked
    (rest : List InTok) (d mn mx : ℤ) (h : d < mn ∨ mx < d) :
    ask_int (.emptyT :: rest) (some d) (some mn) (some mx) = some d := by
  simp [ask_int, askStep]

/-- Witness for C10: default 0 is below the minimum 2025 yet returned. -/
theorem ask_int_default_unchecked_witness :
    ask_int [.emptyT] (some 0) (some 2025) (some 2124) = some 0 :=
  ask_int_default_unchecked [] 0 2025 2124 (Or.inl (by decide))

/-
The lm branch (lines 476-494): `np.polyfit(years, y_vals, 1)` followed by
`np.polyval(coef, hedef_yil)`, `max(0.0, y_pred)` and `round(y_pred)`.
Floats are modelled by exact rationals; the degree-1 least-squares fit is
given by its closed form, which (proved below) minimises the sum of
squared residuals whenever the normal-equation denominator is nonzero.
-/

/-- Sum of first coordinates of the fitted points. -/
def ptsSumX (pts : List (ℚ × ℚ)) : ℚ := (pts.map (fun p => p.1)).sum

/-- Sum of second coordinates. -/
def ptsSumY (pts : List (ℚ × ℚ)) : ℚ := (pts.map (fun p => p.2)).sum

/-- Sum of squared first coordinates. -/
def ptsSumXX (pts : List (ℚ × ℚ)) : ℚ := (pts.map (fun p => p.1 * p.1)).sum

/-- Sum of coordinate products. -/
def ptsSumXY (pts : List (ℚ × ℚ)) : ℚ := (pts.map (fun p => p.1 * p.2)).sum

/-- Denominator of the degree-1 least-squares system
(`n·Σx² − (Σx)²`); nonzero exactly when at least two distinct
x-values are present in a nonempty sample. -/
def fitDenom (pts : List (ℚ × ℚ)) : ℚ :=
  (pts.length : ℚ) * ptsSumXX pts - ptsSumX pts * ptsSumX pts

/-- Slope of `np.polyfit(xs, ys, 1)` in closed form. -/
def fitSlope (pts : List (ℚ × ℚ)) : ℚ :=
  ((pts.length : ℚ) * ptsSumXY pts - ptsSumX pts * ptsSumY pts) / fitDenom pts

/-- Intercept of `np.polyfit(xs, ys, 1)` in closed form. -/
def fitIcept (pts : List (ℚ × ℚ)) : ℚ :=
  (ptsSumY pts - fitSlope pts * ptsSumX pts) / (pts.length : ℚ)

/-- `np.polyval([a, b], x)` for a degree-1 coefficient vector. -/
def polyval1 (a b x : ℚ) : ℚ := a * x + b

/-- Sum of squared residuals of the line `y = a·x + b` on `pts`. -/
def sse (pts : List (ℚ × ℚ)) (a b : ℚ) : ℚ :=
  (pts.map (fun p => (p.2 - (a * p.1 + b)) * (p.2 - (a * p.1 + b)))).sum

/-- Python `round` on floats: round half to even (banker's rounding). -/
def pyRound (q : ℚ) : ℤ :=
  let f := ⌊q⌋
  if q - f < 1 / 2 then f
  else if 1 / 2 < q - f then f + 1
  else if f % 2 = 0 then f else f + 1

/-- The whole lm branch: fit, evaluate at the target year, clamp a
negative prediction to zero, round for display. -/
def lmPredict (pts : List (ℚ × ℚ)) (hedef : ℚ) : ℤ :=
  pyRound (max 0 (polyval1 (fitSlope pts) (fitIcept pts) hedef))

lemma resid_sum (pts : List (ℚ × ℚ)) (a b : ℚ) :
    (pts.map (fun p => p.2 - (a * p.1 + b))).sum =
      ptsSumY pts - a * ptsSumX pts - (pts.length : ℚ) * b := by
  induction pts with
  | nil => simp [ptsSumX, ptsSumY]
  | cons p t ih =>
      simp only [List.map_cons, List.sum_cons, ih, ptsSumX, ptsSumY,
        List.length_cons]
      push_cast
      ring

lemma residx_sum (pts : List (ℚ × ℚ)) (a b : ℚ) :
    (pts.map (fun p => p.1 * (p.2 - (a * p.1 + b)))).sum =
      ptsSumXY pts - a * ptsSumXX pts - b * ptsSumX pts := by
  induction pts with
  | nil => simp [ptsSumX, ptsSumXX, ptsSumXY]
  | cons p t ih =>
      simp only [List.map_cons, List.sum_cons, ih, ptsSumX, ptsSumXX, ptsSumXY]
      ring

lemma sse_shift (pts : List (ℚ × ℚ)) (a b d e : ℚ) :
    sse pts (a + d) (b + e) =
      sse pts a b
        - 2 * d * (pts.map (fun p => p.1 * (p.2 - (a * p.1 + b)))).sum
        - 2 * e * (pts.map (fun p => p.2 - (a * p.1 + b))).sum
        + (pts.map (fun p => (d * p.1 + e) * (d * p.1 + e))).sum := by
  induction pts with
  | nil => simp [sse]
  | cons p t ih =>
      simp only [sse, List.map_cons, List.sum_cons] at *
      rw [ih]
      ring

lemma sq_terms_nonneg (pts : List (ℚ × ℚ)) (d e : ℚ) :
    0 ≤ (pts.map (fun p => (d * p.1 + e) * (d * p.1 + e))).sum := by
  induction pts with
  | nil => simp
  | cons p t ih =>
      simp only [List.map_cons, List.sum_cons]
      have := mul_self_nonneg (d * p.1 + e)
      linarith

lemma length_ne_zero_q (pts : List (ℚ × ℚ)) (h : pts ≠ []) :
    ((pts.length : ℚ)) ≠ 0 := by
  have : pts.length ≠ 0 := by
    simpa [List.length_eq_zero] using h
  exact_mod_cast this

lemma normal_eq_const (pts : List (ℚ × ℚ)) (h : pts ≠ []) :
    (pts.map (fun p => p.2 - (fitSlope pts * p.1 + fitIcept pts))).sum = 0 := by
  rw [resid_sum]
  have hn := length_ne_zero_q pts h
  rw [fitIcept]
  field_simp

lemma normal_eq_lin (pts : List (ℚ × ℚ)) (h : pts ≠ []) (hD : fitDenom pts ≠ 0) :
    (pts.map (fun p => p.1 * (p.2 - (fitSlope pts * p.1 + fitIcept pts)))).sum = 0 := by
  rw [residx_sum]
  have hn := length_ne_zero_q pts h
  have hslope : fitSlope pts * fitDenom pts =
      (pts.length : ℚ) * ptsSumXY pts - ptsSumX pts * ptsSumY pts := by
    rw [fitSlope]
    field_simp
  rw [fitIcept]
  rw [fitDenom] at hslope
  field_simp
  linear_combination (-1 : ℚ) * hslope

lemma pyRound_intCast (n : ℤ) : pyRound (n : ℚ) = n := by
  unfold pyRound
  rw [Int.floor_intCast]
  norm_num

/-- The series of the spec's worked example: years 2016..2020 with
counts 10..50. -/
def demoPts : List (ℚ × ℚ) :=
  [(2016, 10), (2017, 20), (2018, 30), (2019, 40), (2020, 50)]

/-- C3: Linear model. The closed-form fit used by the lm branch is a
least-squares fit: on any nonempty series with a nonzero normal-equation
denominator (equivalently, at least two distinct years) its sum of
squared residuals is at most that of any other line. The displayed
prediction is the fitted value at the target year, clamped at zero and
rounded, hence never negative; and on the series 2016..2020 with counts
10,20,...,50 the prediction for 2026 is 110. -/
theorem lm_branch_least_squares :
    (∀ pts : List (ℚ × ℚ), pts ≠ [] → fitDenom pts ≠ 0 →
       ∀ a b : ℚ, sse pts (fitSlope pts) (fitIcept pts) ≤ sse pts a b)
    ∧ (∀ (pts : List (ℚ × ℚ)) (x : ℚ), 0 ≤ lmPredict pts x)
    ∧ lmPredict demoPts 2026 = 110 := by
  refine ⟨?_, ?_, ?_⟩
  · intro pts hne hD a b
    have key := sse_shift pts (fitSlope pts) (fitIcept pts)
      (a - fitSlope pts) (b - fitIcept pts)
    rw [normal_eq_const pts hne, normal_eq_lin pts hne hD] at key
    have hab : fitSlope pts + (a - fitSlope pts) = a := by ring
    have hbb : fitIcept pts + (b - fitIcept pts) = b := by ring
    rw [hab, hbb] at key
    have hnn := sq_terms_nonneg pts (a - fitSlope pts) (b - fitIcept pts)
    linarith
  · intro pts x
    unfold lmPredict pyRound
    have h0 : (0 : ℚ) ≤ max 0 (polyval1 (fitSlope pts) (fitIcept pts) x) :=
      le_max_left 0 _
    have hf : (0 : ℤ) ≤ ⌊max 0 (polyval1 (fitSlope pts) (fitIcept pts) x)⌋ :=
      Int.floor_nonneg.mpr h0
    simp only
    split
    · exact hf
    · split
      · omega
      · split
        · exact hf
        · omega
  · have hs : fitSlope demoPts = 10 := by
      norm_num [fitSlope, fitDenom, ptsSumX, ptsSumY, ptsSumXX, ptsSumXY, demoPts]
    have hi : fitIcept demoPts = -20150 := by
      rw [fitIcept, hs]
      norm_num [ptsSumX, ptsSumY, demoPts]
    have hval : polyval1 (fitSlope demoPts) (fitIcept demoPts) 2026 = 110 := by
      rw [hs, hi, polyval1]
      norm_num
    have hmax : max (0 : ℚ) 110 = 110 := by norm_num
    have hcast : ((110 : ℤ) : ℚ) = (110 : ℚ) := by norm_num
    rw [lmPredict, hval, hmax, ← hcast, pyRound_intCast]

/-- Witness for C3: the least-squares inequality applied on the demo
series against the zero line. -/
theorem lm_branch_least_squares_witness :
    sse demoPts (fitSlope demoPts) (fitIcept demoPts) ≤ sse demoPts 0 0 :=
  lm_branch_least_squares.1 demoPts (by simp [demoPts])
    (by norm_num [fitDenom, ptsSumX, ptsSumXX, demoPts]) 0 0

/-- One entry of `tahmin_sonuclari` (line 518), restricted to the fields
the claims need: subject, target year, rounded prediction. -/
structure FRes where
  alan : Str
  yil : ℤ
  tahmin : ℤ
deriving DecidableEq

/-- `df_alan_yillik[df_alan_yillik["Alan"] == alan]` (lines 462, 466):
the (year, count) series of one subject. -/
def seriesFor (df : List Row) (alan : Str) : List Row :=
  df.filter (fun r => r.alan = alan)

/-- The per-subject body of the forecast loop (lines 461-494, lm path):
skip when the subject has no rows (line 463), skip when fewer than 2
observations exist (line 471), skip when fewer than 2 distinct years
exist (line 481), otherwise fit and predict. `none` models "warn and
continue with the next subject". -/
def forecastOne (df : List Row) (alan : Str) (hedef : ℤ) : Option FRes :=
  if (seriesFor df alan) = [] then none
  else if (seriesFor df alan).length < 2 then none
  else if (dedupKeepFirst [] ((seriesFor df alan).map (fun r => r.yil))).length < 2 then none
  else some ⟨alan, hedef,
    lmPredict ((seriesFor df alan).map (fun r => ((r.yil : ℚ), (r.sayi : ℚ)))) (hedef : ℚ)⟩

/-- The forecast loop over the matched subjects, collecting results in
processing order (duplicates are not deduplicated). -/
def forecastAll (df : List Row) (alans : List Str) (hedef : ℤ) : List FRes :=
  alans.filterMap (fun a => forecastOne df a hedef)

/-- C6: Data-sufficiency skip. A subject whose series has fewer than 2
observations produces no forecast (its subject body yields nothing, in
particular model fitting is never reached), and the result list of a run
containing it is exactly the result list of the remaining subjects. -/
theorem insufficient_data_skip
    (df : List Row) (pre post : List Str) (alan : Str) (hedef : ℤ)
    (h : (seriesFor df alan).length < 2) :
    forecastOne df alan hedef = none ∧
    forecastAll df (pre ++ alan :: post) hedef =
      forecastAll df pre hedef ++ forecastAll df post hedef := by
  have hone : forecastOne df alan hedef = none := by
    by_cases he : seriesFor df alan = []
    · simp [forecastOne, he]
    · simp [forecastOne, he, h]
  refine ⟨hone, ?_⟩
  simp [forecastAll, List.filterMap_append, List.filterMap_cons, hone]

/-- Witness for C6: a subject observed in a single year is skipped and
contributes nothing to the result list. -/
theorem insufficient_data_skip_witness :
    forecastOne [⟨2020, "chemistry".toList, 5⟩] "chemistry".toList 2026 = none ∧
    forecastAll [⟨2020, "chemistry".toList, 5⟩]
        ([] ++ "chemistry".toList :: []) 2026 =
      forecastAll [⟨2020, "chemistry".toList, 5⟩] [] 2026 ++
        forecastAll [⟨2020, "chemistry".toList, 5⟩] [] 2026 :=
  insufficient_data_skip [⟨2020, "chemistry".toList, 5⟩] [] []
    "chemistry".toList 2026 (by decide)

/-- `alan_mapping` as built at line 385-386 from the aggregated table. -/
def alanMapping (df : List Row) : List (Str × Str) :=
  buildMapping (dedupKeepFirst [] (df.map (fun r => r.alan)))

/-- Where control goes after one pass of the `while True` body:
back to the menu (`continue`) or out of the process (`exit()`). -/
inductive NextState where
  | menu : NextState
  | exitP : NextState
deriving DecidableEq

/-- Observable outcome of one pass of the interactive loop body:
which prompts were reached, what was reported, the result list, and
where control goes next. -/
structure BodyOut where
  matchFailed : Bool
  askedYear : Bool
  askedModel : Bool
  ranForecast : Bool
  reportedNoResults : Bool
  askedSave : Bool
  results : List FRes
  next : NextState
deriving DecidableEq

/-- One pass of the interactive loop body, from subject matching to the
repeat prompt (lines 431-566, lm path). Empty match list: report and
`continue` back to the menu (lines 444-448) — the year prompt, model
prompt and forecast stage are never reached. Otherwise the year and
model prompts run, the forecast loop runs, and: empty result list skips
the save prompt (lines 523-525) while a nonempty one asks it (line 527);
in both cases the repeat prompt (line 558) decides between `continue`
(menu) and `exit()`. -/
def loopBody (df : List Row) (tokens : List Str) (hedef : ℤ) (tekrar : Bool) : BodyOut :=
  if eslesenAlanlar tokens (alanMapping df) = [] then
    { matchFailed := true, askedYear := false, askedModel := false,
      ranForecast := false, reportedNoResults := false, askedSave := false,
      results := [], next := NextState.menu }
  else if forecastAll df (eslesenAlanlar tokens (alanMapping df)) hedef = [] then
    { matchFailed := false, askedYear := true, askedModel := true,
      ranForecast := true, reportedNoResults := true, askedSave := false,
      results := [], next := if tekrar then NextState.menu else NextState.exitP }
  else
    { matchFailed := false, askedYear := true, askedModel := true,
      ranForecast := true, reportedNoResults := false, askedSave := true,
      results := forecastAll df (eslesenAlanlar tokens (alanMapping df)) hedef,
      next := if tekrar then NextState.menu else NextState.exitP }

/-- C8: No-match recovery. When subject matching yields an empty match
list, the pass reports the failure and goes straight back to the menu:
the year prompt, the model prompt and the forecast stage are not
reached, and control is `menu`, not process exit. -/
theorem no_match_recovery
    (df : List Row) (tokens : List Str) (hedef : ℤ) (tekrar : Bool)
    (h : eslesenAlanlar tokens (alanMapping df) = []) :
    (loopBody df tokens hedef tekrar).matchFailed = true ∧
    (loopBody df tokens hedef tekrar).askedYear = false ∧
    (loopBody df tokens hedef tekrar).askedModel = false ∧
    (loopBody df tokens hedef tekrar).ranForecast = false ∧
    (loopBody df tokens hedef tekrar).next = NextState.menu := by
  simp [loopBody, h]

/-- Witness for C8: a token matching nothing in an empty table. -/
theorem no_match_recovery_witness :
    (loopBody [] ["x".toList] 2026 false).matchFailed = true ∧
    (loopBody [] ["x".toList] 2026 false).askedYear = false ∧
    (loopBody [] ["x".toList] 2026 false).askedModel = false ∧
    (loopBody [] ["x".toList] 2026 false).ranForecast = false ∧
    (loopBody [] ["x".toList] 2026 false).next = NextState.menu :=
  no_match_recovery [] ["x".toList] 2026 false (by decide)

/-- Counterexample to C7 as stated: with a matched subject whose series
has a single year, the forecast stage yields an empty result list, yet
the pass does not return to the menu — the repeat prompt runs and a "no"
answer exits the process. -/
theorem empty_results_not_menu_cex :
    (loopBody [⟨2020, "physics".toList, 5⟩] ["physics".toList] 2026 false).results = [] ∧
    (loopBody [⟨2020, "physics".toList, 5⟩] ["physics".toList] 2026 false).next ≠
      NextState.menu := by
  decide

/-- C7 amended: whenever the forecast stage produces an empty result
list (after a nonempty match list), the pass reports the failure and
skips the save prompt; control then goes through the repeat prompt,
returning to the menu only if the user answers yes and exiting the
process otherwise. -/
theorem empty_results_skip_save
    (df : List Row) (tokens : List Str) (hedef : ℤ) (tekrar : Bool)
    (hes : eslesenAlanlar tokens (alanMapping df) ≠ [])
    (hr : forecastAll df (eslesenAlanlar tokens (alanMapping df)) hedef = []) :
    (loopBody df tokens hedef tekrar).reportedNoResults = true ∧
    (loopBody df tokens hedef tekrar).askedSave = false ∧
    (loopBody df tokens hedef tekrar).next =
      (if tekrar then NextState.menu else NextState.exitP) := by
  simp [loopBody, hes, hr]

/-- Witness for C7 (amended): same single-year subject, repeat answered
yes, so control returns to the menu with no save prompt. -/
theorem empty_results_skip_save_witness :
    (loopBody [⟨2020, "physics".toList, 5⟩] ["physics".toList] 2026 true).reportedNoResults = true ∧
    (loopBody [⟨2020, "physics".toList, 5⟩] ["physics".toList] 2026 true).askedSave = false ∧
    (loopBody [⟨2020, "physics".toList, 5⟩] ["physics".toList] 2026 true).next =
      (if true then NextState.menu else NextState.exitP) :=
  empty_results_skip_save [⟨2020, "physics".toList, 5⟩] ["physics".toList] 2026 true
    (by decide) (by decide)

lemma dictSet_fresh (k v : Str) (m : List (Str × Str)) (h : ∀ p ∈ m, p.1 ≠ k) :
    dictSet k v m = m ++ [(k, v)] := by
  induction m with
  | nil => rfl
  | cons p rest ih =>
      have hp : p.1 ≠ k := h p (by simp)
      have hrest : ∀ q ∈ rest, q.1 ≠ k := fun q hq => h q (by simp [hq])
      simp [dictSet, hp, ih hrest]

lemma buildAux_eq (ls : List Str) :
    ∀ acc : List (Str × Str),
      (∀ p ∈ acc, p.1 ∉ ls.map lowerStr) → (ls.map lowerStr).Nodup →
      ls.foldl (fun m a => dictSet (lowerStr a) a m) acc =
        acc ++ ls.map (fun a => (lowerStr a, a)) := by
  induction ls with
  | nil => intro acc _ _; simp
  | cons a t ih =>
      intro acc hacc hnd
      simp only [List.foldl_cons]
      have hfresh : ∀ p ∈ acc, p.1 ≠ lowerStr a := by
        intro p hp he
        exact hacc p hp (by simp [he])
      rw [dictSet_fresh _ _ _ hfresh]
      have hnd' : (t.map lowerStr).Nodup := by
        simpa using hnd.of_cons
      have hhead : lowerStr a ∉ t.map lowerStr := by
        have := hnd
        simp only [List.map_cons, List.nodup_cons] at this
        exact this.1
      have hacc' : ∀ p ∈ acc ++ [(lowerStr a, a)], p.1 ∉ t.map lowerStr := by
        intro p hp
        rcases List.mem_append.mp hp with hp | hp
        · intro hmem
          exact hacc p hp (by simp [hmem])
        · simp only [List.mem_singleton] at hp
          subst hp
          exact hhead
      rw [ih (acc ++ [(lowerStr a, a)]) hacc' hnd']
      simp

lemma buildMapping_eq (ls : List Str) (h : (ls.map lowerStr).Nodup) :
    buildMapping ls = ls.map (fun a => (lowerStr a, a)) := by
  unfold buildMapping
  simpa using buildAux_eq ls [] (by simp) h

/-- Counterexample to C5 as stated: on the data
`["science fiction", "science"]` both labels are canonical and already
lowercase, yet matching `science` returns `science fiction`, because the
earlier alias key contains the token as a substring and the matcher
takes the first hit in iteration order. -/
theorem matcher_not_idempotent_cex :
    lowerStr "science".toList = "science".toList ∧
    "science".toList ∈ ["science fiction".toList, "science".toList] ∧
    firstMatch "science".toList
        (buildMapping ["science fiction".toList, "science".toList]) ≠
      some "science".toList := by
  decide

/-- C5 amended: matching an already-lowercase canonical label against
the alias mapping built from the data returns that same label, provided
the distinct subject labels have pairwise-distinct lowercasings (so the
label's own alias entry still maps to it, rather than having its value
overwritten by a later label with the same lowercase form) and no
earlier alias key in the mapping's iteration order matches the label
(by equality or substring containment). -/
theorem matcher_idempotent_amended
    (l1 l2 : List Str) (lab : Str)
    (hlow : lowerStr lab = lab)
    (hnd : ((l1 ++ lab :: l2).map lowerStr).Nodup)
    (hearlier : ∀ a ∈ l1, matchPred lab (lowerStr a) = false) :
    firstMatch lab (buildMapping (l1 ++ lab :: l2)) = some lab := by
  rw [buildMapping_eq _ hnd, List.map_append, List.map_cons, hlow]
  clear hnd
  revert hearlier
  induction l1 with
  | nil =>
      intro _
      simp [firstMatch, matchPred]
  | cons a t ih =>
      intro hearlier
      have ha : matchPred lab (lowerStr a) = false := hearlier a (by simp)
      have ht : ∀ b ∈ t, matchPred lab (lowerStr b) = false :=
        fun b hb => hearlier b (by simp [hb])
      simpa [firstMatch, ha] using ih ht

/-- Witness for C5 (amended): `chemistry` is the first alias entry, so
matching it returns itself. -/
theorem matcher_idempotent_amended_witness :
    firstMatch "chemistry".toList
        (buildMapping ["chemistry".toList, "physics".toList]) =
      some "chemistry".toList := by
  have h := matcher_idempotent_amended [] ["physics".toList] "chemistry".toList
    (by decide) (by decide) (by intro a ha; simp at ha)
  simpa using h

end Analiz
